import Mathlib

/-!
Shallow embedding of the Helpers repository's CRC-16 engine (crc16.hpp) and
bit-reversal primitive (bitSwap.hpp), together with proofs of the specified
properties.  Machine integers are modelled as Nat with explicit reduction
modulo 2 ^ width at exactly the points where the C++ fixed-width types
truncate.
-/

/-- One masked-shift-or stage of the bit-reversal routines in bitSwap.hpp.
Each overload of Helpers::bitSwap repeats the line
  workValue = ((workValue & mask) >> k) | ((workValue & ~mask) << k);
for a descending sequence of masks.  The complement of the mask inside an
unsigned N-bit variable is (2 ^ N - 1) ^^^ mask, and storing the result back
into the N-bit variable truncates modulo 2 ^ N. -/
def swapStep (N k m : Nat) (w : Nat) : Nat :=
  (((w &&& m) >>> k) ||| ((w &&& ((2 ^ N - 1) ^^^ m)) <<< k)) % 2 ^ N

/-- Helpers::bitSwap(uint8_t), bitSwap.hpp lines 9-25: masks 0xf0, 0xcc, 0xaa
with shifts 4, 2, 1. -/
def bitSwap8 (value : Nat) : Nat :=
  swapStep 8 1 0xaa (swapStep 8 2 0xcc (swapStep 8 4 0xf0 value))

/-- Helpers::bitSwap(uint16_t), bitSwap.hpp lines 27-47: masks 0xff00,
0xf0f0, 0xcccc, 0xaaaa with shifts 8, 4, 2, 1. -/
def bitSwap16 (value : Nat) : Nat :=
  swapStep 16 1 0xaaaa (swapStep 16 2 0xcccc (swapStep 16 4 0xf0f0 (swapStep 16 8 0xff00 value)))

/-- Helpers::bitSwap(uint32_t), bitSwap.hpp lines 49-73. -/
def bitSwap32 (value : Nat) : Nat :=
  swapStep 32 1 0xaaaaaaaa (swapStep 32 2 0xcccccccc (swapStep 32 4 0xf0f0f0f0
    (swapStep 32 8 0xff00ff00 (swapStep 32 16 0xffff0000 value))))

/-- Helpers::bitSwap(uint64_t), bitSwap.hpp lines 75-103. -/
def bitSwap64 (value : Nat) : Nat :=
  swapStep 64 1 0xaaaaaaaaaaaaaaaa (swapStep 64 2 0xcccccccccccccccc
    (swapStep 64 4 0xf0f0f0f0f0f0f0f0 (swapStep 64 8 0xff00ff00ff00ff00
      (swapStep 64 16 0xffff0000ffff0000 (swapStep 64 32 0xffffffff00000000 value)))))

/-- The compile-time parameters of the Crc16 class template, crc16.hpp lines
57-62.  In the C++ source polynomial, initialCrc and xorOut have type
uint16_t; here they are Nat values expected to lie below 2 ^ 16. -/
structure Crc16 where
  polynomial : Nat
  initialCrc : Nat
  reflectIn : Bool
  reflectOut : Bool
  xorOut : Nat

/-- One iteration of the inner bit loop of Crc16::process, crc16.hpp lines
87-108: record whether the most significant bit of the 16-bit register is
set, shift the register left by one (the store into the uint16_t member
truncates modulo 2 ^ 16), and XOR the polynomial in if the recorded bit was
set. -/
def crcStepBit (polynomial crc : Nat) : Nat :=
  let applyPolynomial : Bool := decide (0x8000 &&& crc ≠ 0)
  let shifted := (crc <<< 1) % 2 ^ 16
  if applyPolynomial then shifted ^^^ polynomial else shifted

/-- The body of the outer loop of Crc16::process for one input octet,
crc16.hpp lines 83-108: reflect the uint8_t datum if reflectIn is set, XOR
it into the top byte of the register, then run the bit loop eight times
(CHAR_BIT = 8).  The datum is reduced modulo 2 ^ 8 because the C++ input
type is uint8_t. -/
def processByte (p : Crc16) (crc datum : Nat) : Nat :=
  let octet := datum % 2 ^ 8
  let reflected := if p.reflectIn then bitSwap8 octet else octet
  (crcStepBit p.polynomial)^[8] (crc ^^^ (reflected <<< 8))

/-- Crc16::process, crc16.hpp lines 71-110: fold processByte over the
buffer in order. -/
def Crc16.process (p : Crc16) (crc : Nat) (data : List Nat) : Nat :=
  data.foldl (fun c b => processByte p c b) crc

/-- Crc16::get, crc16.hpp lines 112-115: XOR the (optionally bit-reversed)
register with xorOut. -/
def Crc16.get (p : Crc16) (crc : Nat) : Nat :=
  p.xorOut ^^^ (if p.reflectOut then bitSwap16 crc else crc)

/-- A call of the const member function Crc16::get in state-passing style:
it produces the checksum value and, being const (crc16.hpp line 112),
returns the register unchanged. -/
def Crc16.getCall (p : Crc16) (crc : Nat) : Nat × Nat :=
  (Crc16.get p crc, crc)

/-- The values observed by n consecutive get() calls with no intervening
process call, each call reading the state left by the previous one. -/
def Crc16.getRepeat (p : Crc16) : Nat → Nat → List Nat
  | _, 0 => []
  | crc, n + 1 =>
    let r := Crc16.getCall p crc
    r.1 :: Crc16.getRepeat p r.2 n

/-- Constructing an engine, crc16.hpp lines 57-69.  The template parameters
polynomial, initialCrc and xorOut are declared uint16_t, so instantiating
the template with a value that does not fit in 16 bits is rejected at
compile (construction) time; an accepted instantiation initializes the
register to initialCrc. -/
def Crc16.construct (polynomial initialCrc : Nat) (reflectIn reflectOut : Bool)
    (xorOut : Nat) : Option Crc16 :=
  if polynomial < 2 ^ 16 ∧ initialCrc < 2 ^ 16 ∧ xorOut < 2 ^ 16 then
    some ⟨polynomial, initialCrc, reflectIn, reflectOut, xorOut⟩
  else none

/-- Crc16Xmodem, crc16.hpp line 134. -/
def Crc16Xmodem : Crc16 := ⟨0x1021, 0x0000, false, false, 0x0000⟩

/-- Crc16Kermit, crc16.hpp line 147. -/
def Crc16Kermit : Crc16 := ⟨0x1021, 0x0000, true, true, 0x0000⟩

/-- Crc16Ibm3740, crc16.hpp line 159. -/
def Crc16Ibm3740 : Crc16 := ⟨0x1021, 0xffff, false, false, 0x0000⟩

/-- Crc16SpiFujitsu, crc16.hpp line 170. -/
def Crc16SpiFujitsu : Crc16 := ⟨0x1021, 0x1d0f, false, false, 0x0000⟩

/-- The ASCII bytes of the catalog check string "123456789". -/
def checkBytes : List Nat := [0x31, 0x32, 0x33, 0x34, 0x35, 0x36, 0x37, 0x38, 0x39]

/-- Transcription of the specification's wording of one inner-loop
iteration (spec 4.2 step 3): test whether the top bit of the register is
set, shift the register left by one within its fixed 16 bits, and XOR the
polynomial in exactly when the tested bit was set. -/
def specShiftStep (polynomial crc : Nat) : Nat :=
  let shifted := (crc * 2) % 2 ^ 16
  if crc.testBit 15 then shifted ^^^ polynomial else shifted

/-- Transcription of the specification's wording of the per-byte procedure
(spec 4.2 steps 1-3): reflect the byte if reflectInput is set, XOR it
shifted into the top 8 bits of the register, then run the shift step for
each of the 8 bit positions. -/
def processByteSpec (p : Crc16) (crc datum : Nat) : Nat :=
  let octet := datum % 2 ^ 8
  let reflected := if p.reflectIn then bitSwap8 octet else octet
  (specShiftStep p.polynomial)^[8] (crc ^^^ reflected * 2 ^ 8)

theorem testBit_swapStep (N k m w i : Nat) :
    (swapStep N k m w).testBit i =
      (decide (i < N) && ((decide (m / 2 ^ (k + i) % 2 = 1) && w.testBit (k + i)) ||
        (decide (k ≤ i) && (decide (((2 ^ N - 1) ^^^ m) / 2 ^ (i - k) % 2 = 1) &&
          w.testBit (i - k))))) := by
  unfold swapStep
  simp only [Nat.testBit_mod_two_pow, Nat.testBit_or, Nat.testBit_and,
    Nat.testBit_shiftRight, Nat.testBit_shiftLeft]
  rcases Nat.lt_or_ge i N with h | h
  · rcases Nat.lt_or_ge i k with h2 | h2
    · simp [Nat.not_le.mpr h2, h, Nat.testBit_to_div_mod, Bool.and_comm]
    · simp [h, h2, Nat.testBit_to_div_mod, Bool.and_comm]
  · simp [Nat.not_lt.mpr h]

theorem swapStep_mod_two (N k m w : Nat) :
    decide (swapStep N k m w % 2 = 1) =
      (decide (0 < N) && ((decide (m / 2 ^ k % 2 = 1) && w.testBit k) ||
        (decide (k = 0) && (decide (((2 ^ N - 1) ^^^ m) % 2 = 1) && w.testBit 0)))) := by
  have h := testBit_swapStep N k m w 0
  simp only [Nat.testBit_zero] at h
  rw [h]
  rcases Nat.eq_zero_or_pos k with hk | hk
  · simp [hk]
  · simp [Nat.pos_iff_ne_zero.mp hk, Nat.not_le.mpr hk]

theorem swapStep_lt (N k m w : Nat) : swapStep N k m w < 2 ^ N :=
  Nat.mod_lt _ (Nat.two_pow_pos N)

theorem bitSwap8_lt (x : Nat) : bitSwap8 x < 2 ^ 8 := swapStep_lt ..

theorem bitSwap16_lt (x : Nat) : bitSwap16 x < 2 ^ 16 := swapStep_lt ..

theorem bitSwap32_lt (x : Nat) : bitSwap32 x < 2 ^ 32 := swapStep_lt ..

theorem bitSwap64_lt (x : Nat) : bitSwap64 x < 2 ^ 64 := swapStep_lt ..

theorem bitSwap8_testBit (x i : Nat) (hi : i < 8) :
    (bitSwap8 x).testBit i = x.testBit (7 - i) := by
  interval_cases i <;> simp [bitSwap8, testBit_swapStep, swapStep_mod_two]

set_option maxHeartbeats 1000000 in
theorem bitSwap16_testBit (x i : Nat) (hi : i < 16) :
    (bitSwap16 x).testBit i = x.testBit (15 - i) := by
  interval_cases i <;> simp [bitSwap16, testBit_swapStep, swapStep_mod_two]

set_option maxHeartbeats 2000000 in
theorem bitSwap32_testBit (x i : Nat) (hi : i < 32) :
    (bitSwap32 x).testBit i = x.testBit (31 - i) := by
  interval_cases i <;> simp [bitSwap32, testBit_swapStep, swapStep_mod_two]

set_option maxHeartbeats 4000000 in
theorem bitSwap64_testBit (x i : Nat) (hi : i < 64) :
    (bitSwap64 x).testBit i = x.testBit (63 - i) := by
  interval_cases i <;> simp [bitSwap64, testBit_swapStep, swapStep_mod_two]

theorem bitSwap8_self_inverse (x : Nat) (hx : x < 2 ^ 8) : bitSwap8 (bitSwap8 x) = x := by
  apply Nat.eq_of_testBit_eq
  intro i
  rcases Nat.lt_or_ge i 8 with hi | hi
  · rw [bitSwap8_testBit _ _ hi, bitSwap8_testBit _ _ (by omega : 7 - i < 8)]
    congr 1
    omega
  · have h2 : (2 : Nat) ^ 8 ≤ 2 ^ i := Nat.pow_le_pow_right (by norm_num) hi
    rw [Nat.testBit_lt_two_pow (Nat.lt_of_lt_of_le (bitSwap8_lt _) h2),
      Nat.testBit_lt_two_pow (Nat.lt_of_lt_of_le hx h2)]

theorem bitSwap16_self_inverse (x : Nat) (hx : x < 2 ^ 16) : bitSwap16 (bitSwap16 x) = x := by
  apply Nat.eq_of_testBit_eq
  intro i
  rcases Nat.lt_or_ge i 16 with hi | hi
  · rw [bitSwap16_testBit _ _ hi, bitSwap16_testBit _ _ (by omega : 15 - i < 16)]
    congr 1
    omega
  · have h2 : (2 : Nat) ^ 16 ≤ 2 ^ i := Nat.pow_le_pow_right (by norm_num) hi
    rw [Nat.testBit_lt_two_pow (Nat.lt_of_lt_of_le (bitSwap16_lt _) h2),
      Nat.testBit_lt_two_pow (Nat.lt_of_lt_of_le hx h2)]

theorem bitSwap32_self_inverse (x : Nat) (hx : x < 2 ^ 32) : bitSwap32 (bitSwap32 x) = x := by
  apply Nat.eq_of_testBit_eq
  intro i
  rcases Nat.lt_or_ge i 32 with hi | hi
  · rw [bitSwap32_testBit _ _ hi, bitSwap32_testBit _ _ (by omega : 31 - i < 32)]
    congr 1
    omega
  · have h2 : (2 : Nat) ^ 32 ≤ 2 ^ i := Nat.pow_le_pow_right (by norm_num) hi
    rw [Nat.testBit_lt_two_pow (Nat.lt_of_lt_of_le (bitSwap32_lt _) h2),
      Nat.testBit_lt_two_pow (Nat.lt_of_lt_of_le hx h2)]

theorem bitSwap64_self_inverse (x : Nat) (hx : x < 2 ^ 64) : bitSwap64 (bitSwap64 x) = x := by
  apply Nat.eq_of_testBit_eq
  intro i
  rcases Nat.lt_or_ge i 64 with hi | hi
  · rw [bitSwap64_testBit _ _ hi, bitSwap64_testBit _ _ (by omega : 63 - i < 64)]
    congr 1
    omega
  · have h2 : (2 : Nat) ^ 64 ≤ 2 ^ i := Nat.pow_le_pow_right (by norm_num) hi
    rw [Nat.testBit_lt_two_pow (Nat.lt_of_lt_of_le (bitSwap64_lt _) h2),
      Nat.testBit_lt_two_pow (Nat.lt_of_lt_of_le hx h2)]

theorem crcStepBit_eq_specShiftStep (poly c : Nat) : crcStepBit poly c = specShiftStep poly c := by
  have hbit : decide (0x8000 &&& c ≠ 0) = c.testBit 15 := by
    cases h : c.testBit 15
    · have h0 : 0x8000 &&& c = 0 := by
        apply Nat.eq_of_testBit_eq
        intro i
        rw [Nat.testBit_and, Nat.zero_testBit]
        rcases eq_or_ne i 15 with rfl | hne
        · simp [h]
        · have hm : (0x8000 : Nat).testBit i = false := by
            rw [show (0x8000 : Nat) = 2 ^ 15 from by norm_num, Nat.testBit_two_pow]
            exact decide_eq_false (Ne.symm hne)
          simp [hm]
      simp [h0]
    · have hne : 0x8000 &&& c ≠ 0 := by
        intro h0
        have h1 : (0x8000 &&& c).testBit 15 = false := by
          rw [h0]
          exact Nat.zero_testBit 15
        rw [Nat.testBit_and, h, Bool.and_true] at h1
        exact absurd h1 (by decide)
      simp [hne]
  unfold crcStepBit specShiftStep
  rw [hbit, Nat.shiftLeft_eq]

theorem process_append (p : Crc16) (crc : Nat) (l1 l2 : List Nat) :
    Crc16.process p crc (l1 ++ l2) = Crc16.process p (Crc16.process p crc l1) l2 := by
  simp [Crc16.process]

theorem crcStepBit_lt (poly c : Nat) (hp : poly < 2 ^ 16) : crcStepBit poly c < 2 ^ 16 := by
  unfold crcStepBit
  dsimp only
  split
  · exact Nat.xor_lt_two_pow (Nat.mod_lt _ (Nat.two_pow_pos 16)) hp
  · exact Nat.mod_lt _ (Nat.two_pow_pos 16)

theorem processByte_lt (p : Crc16) (hp : p.polynomial < 2 ^ 16) (crc datum : Nat) :
    processByte p crc datum < 2 ^ 16 := by
  unfold processByte
  dsimp only
  rw [show (8 : Nat) = 7 + 1 from rfl, Function.iterate_succ_apply']
  exact crcStepBit_lt _ _ hp

theorem process_lt (p : Crc16) (hp : p.polynomial < 2 ^ 16) (crc : Nat) (hc : crc < 2 ^ 16)
    (data : List Nat) : Crc16.process p crc data < 2 ^ 16 := by
  induction data generalizing crc with
  | nil => exact hc
  | cons b rest ih =>
    show Crc16.process p (processByte p crc b) rest < 2 ^ 16
    exact ih _ (processByte_lt p hp crc b)

theorem get_lt (p : Crc16) (hx : p.xorOut < 2 ^ 16) (crc : Nat) (hc : crc < 2 ^ 16) :
    Crc16.get p crc < 2 ^ 16 := by
  unfold Crc16.get
  refine Nat.xor_lt_two_pow hx ?_
  split
  · exact bitSwap16_lt _
  · exact hc

theorem processByte_congr (p q : Crc16) (hpoly : p.polynomial = q.polynomial)
    (hrefl : p.reflectIn = q.reflectIn) (crc datum : Nat) :
    processByte p crc datum = processByte q crc datum := by
  unfold processByte
  rw [hpoly, hrefl]

theorem process_congr (p q : Crc16) (hpoly : p.polynomial = q.polynomial)
    (hrefl : p.reflectIn = q.reflectIn) (crc : Nat) (data : List Nat) :
    Crc16.process p crc data = Crc16.process q crc data := by
  induction data generalizing crc with
  | nil => rfl
  | cons b rest ih =>
    show Crc16.process p (processByte p crc b) rest = Crc16.process q (processByte q crc b) rest
    rw [processByte_congr p q hpoly hrefl]
    exact ih _

theorem foldl_process_congr (p q : Crc16) (hpoly : p.polynomial = q.polynomial)
    (hrefl : p.reflectIn = q.reflectIn) (l : List (List Nat)) (s : Nat) :
    l.foldl (fun s c => Crc16.process p s c) s = l.foldl (fun s c => Crc16.process q s c) s := by
  induction l generalizing s with
  | nil => rfl
  | cons c rest ih =>
    show (rest.foldl (fun s c => Crc16.process p s c) (Crc16.process p s c)) =
      (rest.foldl (fun s c => Crc16.process q s c) (Crc16.process q s c))
    rw [process_congr p q hpoly hrefl]
    exact ih _

set_option maxRecDepth 10000 in
/-- C1: for each of the four catalog variants (XMODEM, KERMIT, IBM-3740 and
SPI-FUJITSU, all width 16 with polynomial 0x1021 and the listed init,
reflection and xorOut settings), constructing a fresh engine, processing
the nine ASCII bytes of the check string "123456789" and then calling get
returns exactly 0x31C3, 0x2189, 0x29B1 and 0xE5CC respectively. -/
theorem crc16_known_answer_checks :
    Crc16.get Crc16Xmodem (Crc16.process Crc16Xmodem Crc16Xmodem.initialCrc checkBytes) = 0x31C3 ∧
    Crc16.get Crc16Kermit (Crc16.process Crc16Kermit Crc16Kermit.initialCrc checkBytes) = 0x2189 ∧
    Crc16.get Crc16Ibm3740 (Crc16.process Crc16Ibm3740 Crc16Ibm3740.initialCrc checkBytes) = 0x29B1 ∧
    Crc16.get Crc16SpiFujitsu
      (Crc16.process Crc16SpiFujitsu Crc16SpiFujitsu.initialCrc checkBytes) = 0xE5CC :=
  ⟨by decide, by decide, by decide, by decide⟩

/-- C2: for every byte fed to process, the engine reflects the byte if
reflectInput is set, XORs it shifted into the top 8 bits of the 16-bit
register, and then performs 8 most-significant-bit-first iterations in
which the register is shifted left by one within its fixed 16 bits (the
shifted-out top bit discarded, never overflowing into a wider type) and is
XORed with the polynomial exactly when the pre-shift top bit was set: the
source per-byte procedure coincides with the specification's transcription
of those steps on every register value and every byte. -/
theorem crc16_process_byte_refines_spec (p : Crc16) (crc datum : Nat) :
    processByte p crc datum = processByteSpec p crc datum := by
  have hf : crcStepBit p.polynomial = specShiftStep p.polynomial :=
    funext (fun c => crcStepBit_eq_specShiftStep p.polynomial c)
  simp only [processByte, processByteSpec, hf, Nat.shiftLeft_eq]

/-- C3: for every byte buffer and every way of partitioning it into
consecutive sub-buffers, processing the sub-buffers in order through
successive process calls on one engine and then calling get yields the
same value as processing the whole buffer in a single process call on an
identically constructed engine. -/
theorem crc16_chunking_invariance (p : Crc16) (crc : Nat) (chunks : List (List Nat)) :
    Crc16.get p (chunks.foldl (fun s c => Crc16.process p s c) crc) =
      Crc16.get p (Crc16.process p crc chunks.flatten) := by
  congr 1
  induction chunks generalizing crc with
  | nil => rfl
  | cons c rest ih =>
    rw [List.foldl_cons, List.flatten_cons, process_append]
    exact ih (Crc16.process p crc c)

/-- C4: get returns exactly xorOut XOR (reflectOutput ? reverse16(register)
: register), never mutates the engine's register, and therefore calling
get any number of times without an intervening process call returns the
same value each time. -/
theorem crc16_get_formula_pure_idempotent (p : Crc16) (crc n : Nat) :
    (Crc16.getCall p crc).1 = p.xorOut ^^^ (if p.reflectOut then bitSwap16 crc else crc) ∧
    (Crc16.getCall p crc).2 = crc ∧
    Crc16.getRepeat p crc n = List.replicate n (Crc16.get p crc) := by
  refine ⟨rfl, rfl, ?_⟩
  induction n with
  | zero => rfl
  | succ k ih => simp [Crc16.getRepeat, Crc16.getCall, List.replicate_succ, ih]

/-- C5: for each supported width N in 8, 16, 32, 64 and for every unsigned
N-bit value x, reversing the bits twice gives back x: the bit-reversal
primitive is its own inverse. -/
theorem bitSwap_involution :
    (∀ x, x < 2 ^ 8 → bitSwap8 (bitSwap8 x) = x) ∧
    (∀ x, x < 2 ^ 16 → bitSwap16 (bitSwap16 x) = x) ∧
    (∀ x, x < 2 ^ 32 → bitSwap32 (bitSwap32 x) = x) ∧
    (∀ x, x < 2 ^ 64 → bitSwap64 (bitSwap64 x) = x) :=
  ⟨fun x hx => bitSwap8_self_inverse x hx, fun x hx => bitSwap16_self_inverse x hx,
   fun x hx => bitSwap32_self_inverse x hx, fun x hx => bitSwap64_self_inverse x hx⟩

theorem bitSwap_involution_witness :
    (0xb7 : Nat) < 2 ^ 8 ∧ bitSwap8 (bitSwap8 0xb7) = 0xb7 ∧
    (0x1234 : Nat) < 2 ^ 16 ∧ bitSwap16 (bitSwap16 0x1234) = 0x1234 ∧
    (0xdeadbeef : Nat) < 2 ^ 32 ∧ bitSwap32 (bitSwap32 0xdeadbeef) = 0xdeadbeef ∧
    (0x0123456789abcdef : Nat) < 2 ^ 64 ∧
      bitSwap64 (bitSwap64 0x0123456789abcdef) = 0x0123456789abcdef :=
  ⟨by decide, bitSwap_involution.1 0xb7 (by decide),
   by decide, bitSwap_involution.2.1 0x1234 (by decide),
   by decide, bitSwap_involution.2.2.1 0xdeadbeef (by decide),
   by decide, bitSwap_involution.2.2.2 0x0123456789abcdef (by decide)⟩

/-- C6: for each supported width N in 8, 16, 32, 64, every unsigned N-bit
value x and every bit position i < N, bit i of the reversed value equals
bit N-1-i of x (the most significant bit becomes the least significant
bit, and so on); in particular reversing 0 gives 0 and reversing the
all-ones value gives the all-ones value. -/
theorem bitSwap_bit_reversal_fixed_points :
    (∀ x i, x < 2 ^ 8 → i < 8 → (bitSwap8 x).testBit i = x.testBit (8 - 1 - i)) ∧
    (∀ x i, x < 2 ^ 16 → i < 16 → (bitSwap16 x).testBit i = x.testBit (16 - 1 - i)) ∧
    (∀ x i, x < 2 ^ 32 → i < 32 → (bitSwap32 x).testBit i = x.testBit (32 - 1 - i)) ∧
    (∀ x i, x < 2 ^ 64 → i < 64 → (bitSwap64 x).testBit i = x.testBit (64 - 1 - i)) ∧
    (bitSwap8 0 = 0 ∧ bitSwap16 0 = 0 ∧ bitSwap32 0 = 0 ∧ bitSwap64 0 = 0) ∧
    (bitSwap8 (2 ^ 8 - 1) = 2 ^ 8 - 1 ∧ bitSwap16 (2 ^ 16 - 1) = 2 ^ 16 - 1 ∧
      bitSwap32 (2 ^ 32 - 1) = 2 ^ 32 - 1 ∧ bitSwap64 (2 ^ 64 - 1) = 2 ^ 64 - 1) :=
  ⟨fun x i _ hi => bitSwap8_testBit x i hi, fun x i _ hi => bitSwap16_testBit x i hi,
   fun x i _ hi => bitSwap32_testBit x i hi, fun x i _ hi => bitSwap64_testBit x i hi,
   ⟨by decide, by decide, by decide, by decide⟩,
   ⟨by decide, by decide, by decide, by decide⟩⟩

theorem bitSwap_bit_reversal_fixed_points_witness :
    (0xb7 : Nat) < 2 ^ 8 ∧ (2 : Nat) < 8 ∧
      (bitSwap8 0xb7).testBit 2 = (0xb7 : Nat).testBit (8 - 1 - 2) ∧
    (0x1234 : Nat) < 2 ^ 16 ∧ (5 : Nat) < 16 ∧
      (bitSwap16 0x1234).testBit 5 = (0x1234 : Nat).testBit (16 - 1 - 5) ∧
    (0xdeadbeef : Nat) < 2 ^ 32 ∧ (11 : Nat) < 32 ∧
      (bitSwap32 0xdeadbeef).testBit 11 = (0xdeadbeef : Nat).testBit (32 - 1 - 11) ∧
    (0x0123456789abcdef : Nat) < 2 ^ 64 ∧ (40 : Nat) < 64 ∧
      (bitSwap64 0x0123456789abcdef).testBit 40 =
        (0x0123456789abcdef : Nat).testBit (64 - 1 - 40) :=
  ⟨by decide, by decide,
   bitSwap_bit_reversal_fixed_points.1 0xb7 2 (by decide) (by decide),
   by decide, by decide,
   bitSwap_bit_reversal_fixed_points.2.1 0x1234 5 (by decide) (by decide),
   by decide, by decide,
   bitSwap_bit_reversal_fixed_points.2.2.1 0xdeadbeef 11 (by decide) (by decide),
   by decide, by decide,
   bitSwap_bit_reversal_fixed_points.2.2.2.1 0x0123456789abcdef 40 (by decide) (by decide)⟩

/-- C7: calling process on a zero-length buffer leaves the register
unchanged, and on a freshly constructed engine get returns a value
determined purely by initialValue, reflectOutput and xorOut: two engines
agreeing on those three values report the same fresh checksum; for the
XMODEM parameterization get with no data processed equals 0x0000 and for
IBM-3740 it equals 0xFFFF. -/
theorem crc16_zero_length_and_fresh_get (p q : Crc16) (s : Nat)
    (hinit : p.initialCrc = q.initialCrc) (hro : p.reflectOut = q.reflectOut)
    (hxo : p.xorOut = q.xorOut) :
    Crc16.process p s [] = s ∧
    Crc16.get p (Crc16.process p p.initialCrc []) =
      Crc16.get q (Crc16.process q q.initialCrc []) ∧
    Crc16.get Crc16Xmodem (Crc16.process Crc16Xmodem Crc16Xmodem.initialCrc []) = 0x0000 ∧
    Crc16.get Crc16Ibm3740 (Crc16.process Crc16Ibm3740 Crc16Ibm3740.initialCrc []) = 0xFFFF := by
  refine ⟨rfl, ?_, by decide, by decide⟩
  simp only [Crc16.process, List.foldl_nil, Crc16.get, hinit, hro, hxo]

theorem crc16_zero_length_and_fresh_get_witness :
    Crc16.process Crc16Xmodem 77 [] = 77 ∧
    Crc16.get Crc16Xmodem (Crc16.process Crc16Xmodem Crc16Xmodem.initialCrc []) =
      Crc16.get (⟨0xabcd, 0, true, false, 0⟩ : Crc16)
        (Crc16.process (⟨0xabcd, 0, true, false, 0⟩ : Crc16)
          (⟨0xabcd, 0, true, false, 0⟩ : Crc16).initialCrc []) ∧
    Crc16.get Crc16Xmodem (Crc16.process Crc16Xmodem Crc16Xmodem.initialCrc []) = 0x0000 ∧
    Crc16.get Crc16Ibm3740 (Crc16.process Crc16Ibm3740 Crc16Ibm3740.initialCrc []) = 0xFFFF :=
  crc16_zero_length_and_fresh_get Crc16Xmodem ⟨0xabcd, 0, true, false, 0⟩ 77 rfl rfl rfl

/-- C8: reversing a narrower value and zero-extending it is not equivalent
to reversing the wider value: for each adjacent width pair there is an
input x of the narrower width whose wider reversal differs from its
narrower reversal (zero-extension of a Nat value is the value itself). -/
theorem bitSwap_zero_extension_differs :
    (∃ x, x < 2 ^ 8 ∧ bitSwap16 x ≠ bitSwap8 x) ∧
    (∃ x, x < 2 ^ 16 ∧ bitSwap32 x ≠ bitSwap16 x) ∧
    (∃ x, x < 2 ^ 32 ∧ bitSwap64 x ≠ bitSwap32 x) :=
  ⟨⟨1, by decide, by decide⟩, ⟨1, by decide, by decide⟩, ⟨1, by decide, by decide⟩⟩

/-- C9: a configuration whose polynomial, initialValue or xorOut exceeds
the declared 16-bit width is rejected at construction time (the uint16_t
template parameters cannot receive it), and on every successfully
constructed engine process and get are total over their input domains and
keep the register and checksum within 16 bits, so no configuration error
can surface lazily. -/
theorem crc16_construction_rejects_and_operations_total
    (polynomial initialCrc : Nat) (reflectIn reflectOut : Bool) (xorOut : Nat) (p : Crc16)
    (hp : Crc16.construct polynomial initialCrc reflectIn reflectOut xorOut = some p)
    (crc : Nat) (hc : crc < 2 ^ 16) (data : List Nat) :
    (polynomial < 2 ^ 16 ∧ initialCrc < 2 ^ 16 ∧ xorOut < 2 ^ 16) ∧
    Crc16.process p crc data < 2 ^ 16 ∧ Crc16.get p crc < 2 ^ 16 := by
  unfold Crc16.construct at hp
  split at hp
  case isTrue h =>
    cases hp
    exact ⟨h, process_lt _ h.1 _ hc data, get_lt _ h.2.2 _ hc⟩
  case isFalse h => exact absurd hp (by simp)

theorem crc16_construction_rejects_and_operations_total_witness :
    ((0x1021 : Nat) < 2 ^ 16 ∧ (0xffff : Nat) < 2 ^ 16 ∧ (0x0000 : Nat) < 2 ^ 16) ∧
    Crc16.process Crc16Ibm3740 3 [5, 300] < 2 ^ 16 ∧ Crc16.get Crc16Ibm3740 3 < 2 ^ 16 :=
  crc16_construction_rejects_and_operations_total 0x1021 0xffff false false 0x0000
    Crc16Ibm3740 rfl 3 (by decide) [5, 300]

/-- C10: the register value after processing any byte sequence depends only
on the polynomial, the initial value and reflectIn together with the bytes
themselves: two engines agreeing on those but free to differ in reflectOut
and xorOut produce the same register from any shared state and hold
identical registers after any prefix of a sequence of process calls;
reflectOut and xorOut enter only the value computed by get. -/
theorem crc16_register_noninterference (p q : Crc16) (hpoly : p.polynomial = q.polynomial)
    (hinit : p.initialCrc = q.initialCrc) (hrefl : p.reflectIn = q.reflectIn)
    (crc : Nat) (data : List Nat) (chunks : List (List Nat)) (n : Nat) :
    Crc16.process p crc data = Crc16.process q crc data ∧
    (chunks.take n).foldl (fun s c => Crc16.process p s c) p.initialCrc =
      (chunks.take n).foldl (fun s c => Crc16.process q s c) q.initialCrc := by
  refine ⟨process_congr p q hpoly hrefl crc data, ?_⟩
  rw [hinit]
  exact foldl_process_congr p q hpoly hrefl (chunks.take n) q.initialCrc

theorem crc16_register_noninterference_witness :
    Crc16.process Crc16Xmodem 5 [7, 200] =
      Crc16.process (⟨0x1021, 0, false, true, 0x00ff⟩ : Crc16) 5 [7, 200] ∧
    ([[1], [2, 3]].take 2).foldl (fun s c => Crc16.process Crc16Xmodem s c)
        Crc16Xmodem.initialCrc =
      ([[1], [2, 3]].take 2).foldl
        (fun s c => Crc16.process (⟨0x1021, 0, false, true, 0x00ff⟩ : Crc16) s c)
        (⟨0x1021, 0, false, true, 0x00ff⟩ : Crc16).initialCrc :=
  crc16_register_noninterference Crc16Xmodem ⟨0x1021, 0, false, true, 0x00ff⟩
    rfl rfl rfl 5 [7, 200] [[1], [2, 3]] 2
